import Mathlib

set_option maxHeartbeats 1000000

/-!
Verification development for the SpotInfer offer normalization and ranking
engine: GPU label extraction from free-text descriptions (utils/gpu.py),
offer filtering/sorting and cheapest-offer selection
(adapter/datacrunch_adapter.py, offers.py, prepare/offers.py).

Python strings are sequences of Unicode code points; we model them as lists
of natural numbers.  Prices are modelled as rationals.  Python list.sort
(Timsort) is a stable sort by key; we model it with List.insertionSort,
which is stable for the non-strict key comparison used here.
-/

/-- Model of a Python str: the list of its Unicode code points. -/
abbrev PyStr := List Nat

/-- Code points of a Lean string literal, for writing concrete Python strings. -/
def pstr (s : String) : PyStr := s.data.map Char.toNat

/-- Uppercase of one code point, as Python str.upper acts on the ASCII range
(all GPU descriptions and queries in this repository are ASCII). -/
def upperChar (c : Nat) : Nat := if 97 ≤ c ∧ c ≤ 122 then c - 32 else c

/-- Lowercase of one code point on the ASCII range. -/
def lowerChar (c : Nat) : Nat := if 65 ≤ c ∧ c ≤ 90 then c + 32 else c

/-- Python str.upper over the model. -/
def pyUpper (s : PyStr) : PyStr := s.map upperChar

/-- Python str.lower over the model. -/
def pyLower (s : PyStr) : PyStr := s.map lowerChar

/-- Python substring containment (the in operator on str): the needle occurs
contiguously somewhere in the hay; the empty needle is contained everywhere. -/
def containsSub (hay needle : PyStr) : Bool :=
  (List.range (hay.length + 1)).any (fun i => needle.isPrefixOf (hay.drop i))

/-- ASCII whitespace: the code points the regex class backslash-s matches on
the ASCII range (tab, newline, vertical tab, form feed, carriage return,
space). -/
def isWS (c : Nat) : Bool :=
  c = 32 || c = 9 || c = 10 || c = 11 || c = 12 || c = 13

/-- Shape of every regex in GPU_PATTERNS of utils/gpu.py: a parenthesised
capture group of literal words separated by one-or-more whitespace, followed
by further literal words each preceded by one-or-more whitespace.
For example the source regex (RTX backslash-s+ PRO) backslash-s+ 6000 is
group = [RTX, PRO], tail = [6000]. -/
structure Pat where
  group : List PyStr
  tail : List PyStr

/-- Match a sequence of literal words separated by runs of one-or-more
whitespace at the start of s.  Since each literal starts with a
non-whitespace character, the greedy backslash-s+ of the source regex
matches exactly the maximal whitespace run, so matching is deterministic.
Returns the matched text and the rest of the input. -/
def matchSeq : List PyStr → PyStr → Option (PyStr × PyStr)
  | [], s => some ([], s)
  | [p], s => if p.isPrefixOf s then some (p, s.drop p.length) else none
  | p :: q :: rest, s =>
    if p.isPrefixOf s then
      let r := s.drop p.length
      let ws := r.takeWhile isWS
      if ws.length = 0 then none
      else
        match matchSeq (q :: rest) (r.drop ws.length) with
        | none => none
        | some (m, r2) => some (p ++ ws ++ m, r2)
    else none

/-- Match the tail literals of a pattern, each preceded by a run of
one-or-more whitespace. -/
def matchTail : List PyStr → PyStr → Bool
  | [], _ => true
  | p :: rest, s =>
    let ws := s.takeWhile isWS
    if ws.length = 0 then false
    else
      let r := s.drop ws.length
      if p.isPrefixOf r then matchTail rest (r.drop p.length) else false

/-- Match a whole pattern at the current position; on success return the text
captured by the group (re.Match.group 1 in the source). -/
def matchAt (pat : Pat) (s : PyStr) : Option PyStr :=
  match matchSeq pat.group s with
  | none => none
  | some (g, r) => if matchTail pat.tail r then some g else none

/-- re.search over the model: try the pattern at each position from the left
and return the captured group of the leftmost match. -/
def reSearch (pat : Pat) : PyStr → Option PyStr
  | [] => matchAt pat []
  | c :: t =>
    match matchAt pat (c :: t) with
    | some g => some g
    | none => reSearch pat t

/-- The ordered pattern table GPU_PATTERNS of utils/gpu.py (the same ten
regexes, in the same order, are re-declared inline in
DatacrunchAdapter.get_available_gpu_types and
OffersService.get_available_gpu_types). -/
def GPU_PATTERNS : List Pat :=
  [ ⟨[pstr ("B300")], [pstr ("SXM6")]⟩,
    ⟨[pstr ("B200")], [pstr ("SXM6")]⟩,
    ⟨[pstr ("H200")], [pstr ("SXM5")]⟩,
    ⟨[pstr ("H100")], [pstr ("SXM5")]⟩,
    ⟨[pstr ("A100")], [pstr ("SXM4")]⟩,
    ⟨[pstr ("RTX"), pstr ("PRO")], [pstr ("6000")]⟩,
    ⟨[pstr ("RTX"), pstr ("6000")], [pstr ("Ada")]⟩,
    ⟨[pstr ("RTX"), pstr ("A6000")], []⟩,
    ⟨[pstr ("Tesla"), pstr ("V100")], []⟩,
    ⟨[pstr ("L40S")], []⟩ ]

/-- extract_gpu_type of utils/gpu.py: an empty description is falsy and gives
None; otherwise the first pattern of GPU_PATTERNS whose re.search succeeds
contributes its captured group, and None is returned when none matches. -/
def extract_gpu_type (gpu_description : PyStr) : Option PyStr :=
  if gpu_description.isEmpty then none
  else GPU_PATTERNS.findSome? (fun p => reSearch p gpu_description)

example : extract_gpu_type (pstr ("1x B300 SXM6 262GB")) = some (pstr ("B300")) := by decide
example : extract_gpu_type (pstr ("1x RTX PRO 6000 96GB")) = some (pstr ("RTX PRO")) := by decide
example : extract_gpu_type (pstr ("1x RTX 6000 Ada 48GB")) = some (pstr ("RTX 6000")) := by decide
example : extract_gpu_type (pstr ("1x Tesla V100 16GB")) = some (pstr ("Tesla V100")) := by decide
example : extract_gpu_type (pstr ("No GPU")) = none := by decide
example : extract_gpu_type (pstr ("")) = none := by decide

/-- Structured gpu field of an instance record: the values that
itype.gpu.get with its defaults produces in the source (description defaults
to the empty string, number_of_gpus to 0). -/
structure Gpu where
  description : PyStr
  number_of_gpus : Nat
deriving DecidableEq

/-- One instance offer as the core reads it: on-demand price, spot price
(0 meaning spot unavailable) and the gpu field.  Prices are modelled as
rationals. -/
structure InstanceType where
  price_per_hour : ℚ
  spot_price_per_hour : ℚ
  gpu : Gpu
deriving DecidableEq

/-- Comparison by a rational-valued sort key, the relation under which
Python's stable list.sort(key=...) orders the offers. -/
def keyLe {α : Type} (key : α → ℚ) (a b : α) : Prop := key a ≤ key b

instance {α : Type} (key : α → ℚ) : DecidableRel (keyLe key) :=
  fun a b => inferInstanceAs (Decidable (key a ≤ key b))

instance {α : Type} {key : α → ℚ} : IsTotal α (keyLe key) :=
  ⟨fun a b => le_total (key a) (key b)⟩

instance {α : Type} {key : α → ℚ} : IsTrans α (keyLe key) :=
  ⟨fun _ _ _ hab hbc => le_trans hab hbc⟩

/-- Key of the sorts by on-demand price (lambda x: x.price_per_hour). -/
def priceKey (it : InstanceType) : ℚ := it.price_per_hour

/-- Key of the sorts by spot price (lambda x: x.spot_price_per_hour). -/
def spotKey (it : InstanceType) : ℚ := it.spot_price_per_hour

/-- Lexicographic comparison of code-point strings, the order Python's
sorted() uses on str. -/
def lexLe : PyStr → PyStr → Bool
  | [], _ => true
  | _ :: _, [] => false
  | a :: as, b :: bs => if a < b then true else if a = b then lexLe as bs else false

/-- Propositional form of lexLe. -/
def lexRel (a b : PyStr) : Prop := lexLe a b = true

instance : DecidableRel lexRel :=
  fun a b => inferInstanceAs (Decidable (lexLe a b = true))

/-- Set of unique GPU labels collected by the for loop of
get_available_gpu_types_from_instances (utils/gpu.py): for every instance
whose gpu description is non-empty (truthy) and whose number_of_gpus is
positive, a successful extraction contributes its label.  Order of
collection is irrelevant because the caller sorts the deduplicated set. -/
def collectGpuTypes : List InstanceType → List PyStr
  | [] => []
  | it :: rest =>
    if !it.gpu.description.isEmpty && decide (0 < it.gpu.number_of_gpus) then
      match extract_gpu_type it.gpu.description with
      | some t => t :: collectGpuTypes rest
      | none => collectGpuTypes rest
    else collectGpuTypes rest

/-- get_available_gpu_types_from_instances of utils/gpu.py: the Python set of
collected labels, returned as sorted(list(set)).  The set is modelled as
dedup of the collected labels; the final sort makes the set's iteration
order irrelevant. -/
def get_available_gpu_types_from_instances (instance_types : List InstanceType) : List PyStr :=
  List.insertionSort lexRel (collectGpuTypes instance_types).dedup

/-- format_gpu_display of utils/gpu.py. -/
def format_gpu_display (gpu_description : PyStr) (gpu_count : Nat) : PyStr :=
  if gpu_description.isEmpty || gpu_count = 0 then pstr ("CPU Only")
  else
    match extract_gpu_type gpu_description with
    | none => pstr ("Unknown")
    | some t =>
      if 1 < gpu_count then pstr (Nat.repr gpu_count) ++ pstr ("x") ++ t
      else t

/-- Python truthiness of an Optional[str] argument: None and the empty string
are falsy. -/
def truthy : Option PyStr → Bool
  | none => false
  | some s => !s.isEmpty

namespace DatacrunchAdapter

/-- get_instance_types of adapter/datacrunch_adapter.py: returns the raw
snapshot supplied by the SDK client. -/
def get_instance_types (snapshot : List InstanceType) : List InstanceType :=
  snapshot

/-- get_spot_instance_types of adapter/datacrunch_adapter.py: the list
comprehension keeping exactly the offers with positive spot price, in
snapshot order. -/
def get_spot_instance_types (snapshot : List InstanceType) : List InstanceType :=
  (get_instance_types snapshot).filter (fun it => decide (0 < it.spot_price_per_hour))

/-- filter_by_gpu_type of adapter/datacrunch_adapter.py: keep the offers whose
uppercased raw gpu description contains the uppercased query as a substring,
then sort (stably, in place) by on-demand price. -/
def filter_by_gpu_type (snapshot : List InstanceType) (gpu_type : PyStr) : List InstanceType :=
  List.insertionSort (keyLe priceKey)
    ((get_instance_types snapshot).filter
      (fun it => containsSub (pyUpper it.gpu.description) (pyUpper gpu_type)))

/-- Starting offer list of get_cheapest_offer in
adapter/datacrunch_adapter.py (its if gpu_type / elif spot / else chain):
the GPU filter when gpu_type is truthy, else the spot list when spot is
set, else the full snapshot. -/
def cheapest_start (snapshot : List InstanceType) (gpu_type : Option PyStr)
    (spot : Bool) : List InstanceType :=
  if truthy gpu_type then filter_by_gpu_type snapshot (gpu_type.getD [])
  else if spot then get_spot_instance_types snapshot
  else get_instance_types snapshot

/-- get_cheapest_offer of adapter/datacrunch_adapter.py: None on an empty
starting list, else the head after a stable in-place sort by spot or
on-demand price. -/
def get_cheapest_offer (snapshot : List InstanceType) (gpu_type : Option PyStr)
    (spot : Bool) : Option InstanceType :=
  let offers := cheapest_start snapshot gpu_type spot
  if offers.isEmpty then none
  else if spot then (List.insertionSort (keyLe spotKey) offers).head?
  else (List.insertionSort (keyLe priceKey) offers).head?

/-- get_available_gpu_types of adapter/datacrunch_adapter.py: the same
guard, the same inlined ordered pattern table with break on first match, and
the same sorted set as get_available_gpu_types_from_instances. -/
def get_available_gpu_types (snapshot : List InstanceType) : List PyStr :=
  get_available_gpu_types_from_instances (get_instance_types snapshot)

end DatacrunchAdapter

namespace OffersService

/-- list_all_offers of offers.py: the snapshot stably sorted in place by
on-demand price. -/
def list_all_offers (snapshot : List InstanceType) : List InstanceType :=
  List.insertionSort (keyLe priceKey) snapshot

/-- list_spot_offers of offers.py: the snapshot stably sorted in place by
spot price, with no filtering. -/
def list_spot_offers (snapshot : List InstanceType) : List InstanceType :=
  List.insertionSort (keyLe spotKey) snapshot

/-- filter_by_gpu_type of offers.py: same algorithm as the adapter's. -/
def filter_by_gpu_type (snapshot : List InstanceType) (gpu_type : PyStr) : List InstanceType :=
  List.insertionSort (keyLe priceKey)
    (snapshot.filter
      (fun it => containsSub (pyUpper it.gpu.description) (pyUpper gpu_type)))

/-- Starting offer list of get_cheapest_offer in offers.py (its if gpu_type
/ else chain): the GPU filter when gpu_type is truthy, else list_all_offers
— never the spot list, whatever the spot flag says. -/
def cheapest_start (snapshot : List InstanceType) (gpu_type : Option PyStr) :
    List InstanceType :=
  if truthy gpu_type then filter_by_gpu_type snapshot (gpu_type.getD [])
  else list_all_offers snapshot

/-- get_cheapest_offer of offers.py: None on an empty starting list; when
spot is set, re-sort (stably, in place) by spot price and take the head,
else take the head of the already price-sorted starting list. -/
def get_cheapest_offer (snapshot : List InstanceType) (gpu_type : Option PyStr)
    (spot : Bool) : Option InstanceType :=
  let offers := cheapest_start snapshot gpu_type
  if offers.isEmpty then none
  else if spot then (List.insertionSort (keyLe spotKey) offers).head?
  else offers.head?

/-- get_available_gpu_types of offers.py: same guard, same inlined pattern
table and sorted set as get_available_gpu_types_from_instances. -/
def get_available_gpu_types (snapshot : List InstanceType) : List PyStr :=
  get_available_gpu_types_from_instances snapshot

end OffersService

namespace InstanceSelectionService

/-- list_all_offers of prepare/offers.py: delegates to
adapter.get_instance_types and performs no sort. -/
def list_all_offers (snapshot : List InstanceType) : List InstanceType :=
  DatacrunchAdapter.get_instance_types snapshot

/-- list_spot_offers of prepare/offers.py: delegates to
adapter.get_spot_instance_types. -/
def list_spot_offers (snapshot : List InstanceType) : List InstanceType :=
  DatacrunchAdapter.get_spot_instance_types snapshot

/-- filter_by_gpu_type of prepare/offers.py: delegates to the adapter. -/
def filter_by_gpu_type (snapshot : List InstanceType) (gpu_type : PyStr) : List InstanceType :=
  DatacrunchAdapter.filter_by_gpu_type snapshot gpu_type

/-- get_cheapest_offer of prepare/offers.py: delegates to the adapter. -/
def get_cheapest_offer (snapshot : List InstanceType) (gpu_type : Option PyStr)
    (spot : Bool) : Option InstanceType :=
  DatacrunchAdapter.get_cheapest_offer snapshot gpu_type spot

end InstanceSelectionService

/-!
Helper lemmas: stability of the modelled Python sort, characterization of
the head of a sorted list as the first occurrence of the minimum, first-match
behaviour of findSome?, substring containment, and ASCII case mapping.
-/

/-- x is the offer a stable ascending sort by key brings to the front: its
key is minimal in l and x is the first element of l carrying that key. -/
def IsFirstMinBy {α : Type} (key : α → ℚ) (l : List α) (x : α) : Prop :=
  x ∈ l ∧ (∀ z ∈ l, key x ≤ key z) ∧
    l.find? (fun y => decide (key y = key x)) = some x

theorem head?_filter_eq_find? {α : Type} (p : α → Bool) :
    ∀ l : List α, (l.filter p).head? = l.find? p := by
  intro l
  induction l with
  | nil => rfl
  | cons a t ih =>
    by_cases h : p a
    · simp [List.filter_cons, h, List.find?_cons, ih]
    · simp only [List.filter_cons, List.find?_cons]
      rw [if_neg (by simp [h])]
      simp [h, ih]

theorem filter_keyEq_orderedInsert {α : Type} (key : α → ℚ) (q : ℚ) (a : α) :
    ∀ s : List α,
      (List.orderedInsert (keyLe key) a s).filter (fun y => decide (key y = q)) =
        if key a = q then a :: s.filter (fun y => decide (key y = q))
        else s.filter (fun y => decide (key y = q)) := by
  intro s
  induction s with
  | nil =>
    simp only [List.orderedInsert, List.filter_cons, List.filter_nil]
    by_cases h : key a = q <;> simp [h]
  | cons b t ih =>
    simp only [List.orderedInsert]
    by_cases hab : keyLe key a b
    · rw [if_pos hab]
      by_cases ha : key a = q <;> by_cases hb : key b = q <;>
        simp [List.filter_cons, ha, hb]
    · rw [if_neg hab]
      have hba : key b < key a := lt_of_not_le hab
      by_cases ha : key a = q
      · have hb : ¬ key b = q := by
          intro hc
          rw [← ha] at hc
          exact absurd hc (ne_of_lt hba)
        simp [List.filter_cons, ha, hb, ih]
      · by_cases hb : key b = q <;> simp [List.filter_cons, ha, hb, ih]

theorem filter_keyEq_insertionSort {α : Type} (key : α → ℚ) (q : ℚ) :
    ∀ l : List α,
      (List.insertionSort (keyLe key) l).filter (fun y => decide (key y = q)) =
        l.filter (fun y => decide (key y = q)) := by
  intro l
  induction l with
  | nil => rfl
  | cons a t ih =>
    show (List.orderedInsert (keyLe key) a (List.insertionSort (keyLe key) t)).filter _ = _
    rw [filter_keyEq_orderedInsert, ih]
    by_cases h : key a = q <;> simp [List.filter_cons, h]

theorem insertionSort_ne_nil {α : Type} (r : α → α → Prop) [DecidableRel r]
    (l : List α) (h : l ≠ []) : List.insertionSort r l ≠ [] := by
  intro hc
  have hlen := List.length_insertionSort r l
  rw [hc] at hlen
  exact h (List.length_eq_zero.mp hlen.symm)

theorem head?_insertionSort_isFirstMinBy {α : Type} (key : α → ℚ) (l : List α) (x : α)
    (hx : (List.insertionSort (keyLe key) l).head? = some x) : IsFirstMinBy key l x := by
  have hperm := List.perm_insertionSort (keyLe key) l
  have hsort := List.sorted_insertionSort (keyLe key) l
  obtain ⟨t, ht⟩ : ∃ t, List.insertionSort (keyLe key) l = x :: t := by
    cases h : List.insertionSort (keyLe key) l with
    | nil => rw [h] at hx; exact absurd hx (by simp)
    | cons a s =>
      rw [h] at hx
      simp only [List.head?_cons, Option.some.injEq] at hx
      exact ⟨s, by rw [hx]⟩
  have hmem : x ∈ l := hperm.mem_iff.mp (ht ▸ List.mem_cons_self x t)
  have hmin : ∀ z ∈ l, key x ≤ key z := by
    intro z hz
    have hz2 : z ∈ x :: t := ht ▸ hperm.mem_iff.mpr hz
    rcases List.mem_cons.mp hz2 with h | h
    · rw [h]
    · rw [ht] at hsort
      exact (List.sorted_cons.mp hsort).1 z h
  refine ⟨hmem, hmin, ?_⟩
  have hfil := filter_keyEq_insertionSort key (key x) l
  rw [ht, List.filter_cons] at hfil
  rw [if_pos (by simp)] at hfil
  rw [← head?_filter_eq_find?, ← hfil]
  rfl

theorem findSome?_of_first {α β : Type} (f : α → Option β) (l : List α) :
    ∀ (g : β) (i : Nat) (h : i < l.length),
      f (l.get ⟨i, h⟩) = some g →
      (∀ (j : Nat) (hj : j < l.length), j < i → f (l.get ⟨j, hj⟩) = none) →
      l.findSome? f = some g := by
  induction l with
  | nil => intro g i h; exact absurd h (by simp)
  | cons a t ih =>
    intro g i h hg hnone
    cases i with
    | zero =>
      simp only [List.get] at hg
      simp [List.findSome?_cons, hg]
    | succ i =>
      have ha : f a = none := hnone 0 (by simp) (Nat.succ_pos i)
      simp only [List.get] at hg
      have hrec := ih g i (Nat.lt_of_succ_lt_succ h) hg
        (fun j hj hji => hnone (j + 1) (Nat.succ_lt_succ hj) (Nat.succ_lt_succ hji))
      simp [List.findSome?_cons, ha, hrec]

theorem first_of_findSome? {α β : Type} (f : α → Option β) (l : List α) :
    ∀ g : β, l.findSome? f = some g →
      ∃ (i : Nat) (h : i < l.length), f (l.get ⟨i, h⟩) = some g ∧
        ∀ (j : Nat) (hj : j < l.length), j < i → f (l.get ⟨j, hj⟩) = none := by
  induction l with
  | nil => intro g hg; exact absurd hg (by simp)
  | cons a t ih =>
    intro g hg
    cases ha : f a with
    | some b =>
      have hbg : b = g := by
        rw [List.findSome?_cons, ha] at hg
        exact Option.some.injEq b g ▸ (by simpa using hg)
      refine ⟨0, by simp, by simpa [ha] using hbg, ?_⟩
      intro j hj hj0
      exact absurd hj0 (Nat.not_lt_zero j)
    | none =>
      have hrec : t.findSome? f = some g := by
        rw [List.findSome?_cons, ha] at hg
        exact hg
      obtain ⟨i, h, hfi, hnone⟩ := ih g hrec
      refine ⟨i + 1, Nat.succ_lt_succ h, hfi, ?_⟩
      intro j hj hji
      cases j with
      | zero => exact ha
      | succ j => exact hnone j (Nat.lt_of_succ_lt_succ hj) (Nat.lt_of_succ_lt_succ hji)

theorem lexLe_total : ∀ a b : PyStr, lexLe a b = true ∨ lexLe b a = true := by
  intro a
  induction a with
  | nil => intro b; left; rfl
  | cons x xs ih =>
    intro b
    cases b with
    | nil => right; rfl
    | cons y ys =>
      by_cases hxy : x < y
      · left; simp [lexLe, hxy]
      · by_cases hyx : y < x
        · right; simp [lexLe, hyx]
        · have hxey : x = y := le_antisymm (not_lt.mp hyx) (not_lt.mp hxy)
          subst hxey
          rcases ih ys with h | h
          · left; simp [lexLe, h]
          · right; simp [lexLe, h]

theorem lexLe_trans : ∀ a b c : PyStr,
    lexLe a b = true → lexLe b c = true → lexLe a c = true := by
  intro a
  induction a with
  | nil => intro b c _ _; rfl
  | cons x xs ih =>
    intro b c hab hbc
    cases b with
    | nil => simp [lexLe] at hab
    | cons y ys =>
      cases c with
      | nil => simp [lexLe] at hbc
      | cons z zs =>
        by_cases h1 : x < y
        · by_cases h2 : y < z
          · simp [lexLe, lt_trans h1 h2]
          · by_cases h3 : y = z
            · subst h3; simp [lexLe, h1]
            · simp [lexLe, h2, h3] at hbc
        · by_cases h1e : x = y
          · subst h1e
            have hxys : lexLe xs ys = true := by
              simpa [lexLe, lt_irrefl] using hab
            by_cases h2 : x < z
            · simp [lexLe, h2]
            · by_cases h3 : x = z
              · subst h3
                have hysz : lexLe ys zs = true := by
                  simpa [lexLe, lt_irrefl] using hbc
                simp [lexLe, lt_irrefl, ih ys zs hxys hysz]
              · simp [lexLe, h2, h3] at hbc
          · simp [lexLe, h1, h1e] at hab

instance : IsTotal PyStr lexRel := ⟨fun a b => lexLe_total a b⟩

instance : IsTrans PyStr lexRel := ⟨fun a b c => lexLe_trans a b c⟩

theorem mem_collectGpuTypes (t : PyStr) :
    ∀ l : List InstanceType,
      t ∈ collectGpuTypes l ↔
        ∃ it ∈ l, it.gpu.description ≠ [] ∧ 0 < it.gpu.number_of_gpus ∧
          extract_gpu_type it.gpu.description = some t := by
  intro l
  induction l with
  | nil => simp [collectGpuTypes]
  | cons it rest ih =>
    simp only [collectGpuTypes]
    by_cases hc : (!it.gpu.description.isEmpty && decide (0 < it.gpu.number_of_gpus)) = true
    · rw [if_pos hc]
      simp only [Bool.and_eq_true, Bool.not_eq_eq_eq_not, Bool.not_true,
        decide_eq_true_eq] at hc
      have hdesc : it.gpu.description ≠ [] := by
        intro h
        rw [h] at hc
        simp at hc
      cases hext : extract_gpu_type it.gpu.description with
      | some u =>
        constructor
        · intro h
          rcases List.mem_cons.mp h with rfl | hmem
          · exact ⟨it, List.mem_cons_self it rest, hdesc, hc.2, hext⟩
          · obtain ⟨w, hw, h1, h2, h3⟩ := ih.mp hmem
            exact ⟨w, List.mem_cons_of_mem it hw, h1, h2, h3⟩
        · rintro ⟨w, hw, h1, h2, h3⟩
          rcases List.mem_cons.mp hw with rfl | hw2
          · have hut : u = t := by
              rw [hext] at h3
              exact Option.some_inj.mp h3
            exact hut ▸ List.mem_cons_self u (collectGpuTypes rest)
          · exact List.mem_cons_of_mem u (ih.mpr ⟨w, hw2, h1, h2, h3⟩)
      | none =>
        rw [ih]
        constructor
        · rintro ⟨w, hw, h1, h2, h3⟩
          exact ⟨w, List.mem_cons_of_mem it hw, h1, h2, h3⟩
        · rintro ⟨w, hw, h1, h2, h3⟩
          rcases List.mem_cons.mp hw with rfl | hw2
          · rw [hext] at h3; exact absurd h3 (by simp)
          · exact ⟨w, hw2, h1, h2, h3⟩
    · rw [if_neg hc]
      simp only [Bool.and_eq_true, Bool.not_eq_eq_eq_not, Bool.not_true,
        decide_eq_true_eq, not_and] at hc
      rw [ih]
      constructor
      · rintro ⟨w, hw, h1, h2, h3⟩
        exact ⟨w, List.mem_cons_of_mem it hw, h1, h2, h3⟩
      · rintro ⟨w, hw, h1, h2, h3⟩
        rcases List.mem_cons.mp hw with rfl | hw2
        · have : w.gpu.description.isEmpty = false := by
            cases hd : w.gpu.description with
            | nil => exact absurd hd h1
            | cons c cs => rfl
          exact absurd h2 (by simpa [this] using hc this)
        · exact ⟨w, hw2, h1, h2, h3⟩

theorem containsSub_eq_true_iff (hay needle : PyStr) :
    containsSub hay needle = true ↔ needle <:+: hay := by
  unfold containsSub
  rw [List.any_eq_true]
  constructor
  · rintro ⟨i, _, hpre⟩
    rw [ List.isPrefixOf_iff_prefix] at hpre
    obtain ⟨v, hv⟩ := hpre
    refine ⟨hay.take i, v, ?_⟩
    rw [List.append_assoc, hv, List.take_append_drop]
  · rintro ⟨s, v, hst⟩
    refine ⟨s.length, List.mem_range.mpr ?_, ?_⟩
    · have : hay.length = s.length + (needle.length + v.length) := by
        rw [← hst]; simp [List.length_append, Nat.add_assoc]
      omega
    · rw [ List.isPrefixOf_iff_prefix]
      refine ⟨v, ?_⟩
      have : hay = s ++ (needle ++ v) := by rw [← List.append_assoc, hst]
      rw [this, List.drop_left]

theorem containsSub_nil_needle (hay : PyStr) : containsSub hay [] = true :=
  (containsSub_eq_true_iff hay []).mpr List.nil_infix

theorem upperChar_upperChar (c : Nat) : upperChar (upperChar c) = upperChar c := by
  simp only [upperChar]
  split_ifs <;> omega

theorem upperChar_lowerChar (c : Nat) : upperChar (lowerChar c) = upperChar c := by
  simp only [upperChar, lowerChar]
  split_ifs <;> omega

theorem pyUpper_pyUpper (s : PyStr) : pyUpper (pyUpper s) = pyUpper s := by
  simp [pyUpper, List.map_map, Function.comp_def, upperChar_upperChar]

theorem pyUpper_pyLower (s : PyStr) : pyUpper (pyLower s) = pyUpper s := by
  simp [pyUpper, pyLower, List.map_map, Function.comp_def, upperChar_lowerChar]

theorem pyUpper_infix_iff (d q : PyStr) :
    pyUpper q <:+: pyUpper d ↔ ∃ s, s <:+: d ∧ pyUpper s = pyUpper q := by
  constructor
  · rintro ⟨u, v, huv⟩
    have hmap : d.map upperChar = u ++ (pyUpper q ++ v) := by
      rw [← List.append_assoc, huv]; rfl
    obtain ⟨a, rest, hd, ha, hrest⟩ := List.map_eq_append_iff.mp hmap
    obtain ⟨s, b, hrest2, hs, _⟩ := List.map_eq_append_iff.mp hrest
    refine ⟨s, ⟨a, b, ?_⟩, hs⟩
    rw [hd, hrest2, List.append_assoc]
  · rintro ⟨s, ⟨a, b, hab⟩, hs⟩
    refine ⟨pyUpper a, pyUpper b, ?_⟩
    rw [← hab]
    simp only [pyUpper, List.map_append] at hs ⊢
    rw [hs]

/-- Case-insensitive substring containment of the query in the RAW
description, as the source realises it by uppercasing both sides: it holds
exactly when some contiguous piece of the raw description equals the query
up to case. -/
theorem ciContains_iff (d q : PyStr) :
    containsSub (pyUpper d) (pyUpper q) = true ↔
      ∃ s, s <:+: d ∧ pyUpper s = pyUpper q := by
  rw [containsSub_eq_true_iff, pyUpper_infix_iff]

theorem head?_some_of_ne_nil {α : Type} (l : List α) (h : l ≠ []) :
    ∃ x, l.head? = some x := by
  cases l with
  | nil => exact absurd rfl h
  | cons a t => exact ⟨a, rfl⟩

/-!
Concrete offers used by the closed witness and counterexample theorems.
-/

/-- Offer with on-demand price 5 and no spot availability (spot price 0). -/
def offerCheapNoSpot : InstanceType := ⟨5, 0, ⟨pstr (""), 0⟩⟩

/-- Offer with on-demand price 6 and spot price 1. -/
def offerSpot : InstanceType := ⟨6, 1, ⟨pstr (""), 0⟩⟩

/-- A100 offer priced 1 on demand with no spot availability. -/
def offerA100Spot0 : InstanceType := ⟨1, 0, ⟨pstr ("1x A100 SXM4 40GB"), 1⟩⟩

/-- CPU-only offer priced 2 on demand, spot price 1. -/
def offerPriceTwo : InstanceType := ⟨2, 1, ⟨pstr (""), 0⟩⟩

/-- CPU-only offer priced 1 on demand, spot price 2. -/
def offerPriceOne : InstanceType := ⟨1, 2, ⟨pstr (""), 0⟩⟩

/-!
Claim theorems.
-/

/-- C1: for every description string, the extractor returns the captured
label of the first pattern in the ordered ten-rule table whose search
matches, and returns None exactly when the description is empty or no rule
matches; a description containing RTX PRO 6000 yields RTX PRO and one
containing RTX 6000 Ada yields RTX 6000, resolved by rule order. -/
theorem c1_extract_first_match :
    (∀ d : PyStr,
      (extract_gpu_type d = none ↔ d = [] ∨ ∀ p ∈ GPU_PATTERNS, reSearch p d = none) ∧
      (∀ (i : Nat) (h : i < GPU_PATTERNS.length) (g : PyStr),
        d ≠ [] → reSearch (GPU_PATTERNS.get ⟨i, h⟩) d = some g →
        (∀ (j : Nat) (hj : j < GPU_PATTERNS.length), j < i →
          reSearch (GPU_PATTERNS.get ⟨j, hj⟩) d = none) →
        extract_gpu_type d = some g)) ∧
    extract_gpu_type (pstr ("1x RTX PRO 6000 96GB")) = some (pstr ("RTX PRO")) ∧
    extract_gpu_type (pstr ("1x RTX 6000 Ada 48GB")) = some (pstr ("RTX 6000")) := by
  refine ⟨fun d => ⟨?_, ?_⟩, by decide, by decide⟩
  · by_cases hd : d = []
    · subst hd
      simp [extract_gpu_type]
    · have hne : d.isEmpty = false := by
        cases d with
        | nil => exact absurd rfl hd
        | cons c t => rfl
      rw [extract_gpu_type, if_neg (by simp [hne])]
      rw [List.findSome?_eq_none_iff]
      constructor
      · intro h; exact Or.inr h
      · intro h
        rcases h with h | h
        · exact absurd h hd
        · exact h
  · intro i h g hd hg hnone
    have hne : d.isEmpty = false := by
      cases d with
      | nil => exact absurd rfl hd
      | cons c t => rfl
    rw [extract_gpu_type, if_neg (by simp [hne])]
    exact findSome?_of_first (fun p => reSearch p d) GPU_PATTERNS g i h hg hnone

/-- Witness for C1: the first-match component applied at the H100 pattern
(index 3 of the table) on a concrete description. -/
theorem c1_witness :
    extract_gpu_type (pstr ("1x H100 SXM5 80GB")) = some (pstr ("H100")) := by
  exact (c1_extract_first_match.1 (pstr ("1x H100 SXM5 80GB"))).2 3 (by decide)
    (pstr ("H100")) (by decide) (by decide) (by decide)

/-- C3 (amended): list_all_offers of offers.py returns a stable
price-ascending permutation of the snapshot, while list_all_offers of
prepare/offers.py returns the snapshot unchanged, hence a permutation but
not necessarily price-sorted. -/
theorem c3_list_all_characterization (snapshot : List InstanceType) :
    List.Perm (OffersService.list_all_offers snapshot) snapshot ∧
    List.Sorted (keyLe priceKey) (OffersService.list_all_offers snapshot) ∧
    (∀ q : ℚ,
      (OffersService.list_all_offers snapshot).filter (fun y => decide (priceKey y = q)) =
        snapshot.filter (fun y => decide (priceKey y = q))) ∧
    InstanceSelectionService.list_all_offers snapshot = snapshot :=
  ⟨List.perm_insertionSort _ _, List.sorted_insertionSort _ _,
    fun q => filter_keyEq_insertionSort priceKey q snapshot, rfl⟩

/-- Witness for C3: the characterization applied to a concrete two-offer
snapshot. -/
theorem c3_witness :
    List.Perm (OffersService.list_all_offers [offerPriceTwo, offerPriceOne])
      [offerPriceTwo, offerPriceOne] :=
  (c3_list_all_characterization [offerPriceTwo, offerPriceOne]).1

/-- Counterexample for C3 as stated: on the non-empty snapshot
[offerPriceTwo, offerPriceOne] (prices 2 then 1), the prepare-module
list_all_offers returns the snapshot unsorted, so its price_per_hour values
are not non-decreasing. -/
theorem c3_counterexample :
    InstanceSelectionService.list_all_offers [offerPriceTwo, offerPriceOne] =
      [offerPriceTwo, offerPriceOne] ∧
    ¬ List.Sorted (keyLe priceKey)
      (InstanceSelectionService.list_all_offers [offerPriceTwo, offerPriceOne]) := by
  refine ⟨rfl, ?_⟩
  intro h
  have h21 := (List.sorted_cons.mp h).1 offerPriceOne (by simp)
  have : (2 : ℚ) ≤ 1 := h21
  norm_num at this

/-- C7 (amended): the adapter's get_spot_instance_types and the prepare
module's list_spot_offers follow variant (a) — exactly the offers with
positive spot price, in snapshot order — while list_spot_offers of
offers.py follows variant (b): all offers stable-sorted ascending by spot
price, spot-unavailable ones included. -/
theorem c7_list_spot_characterization (snapshot : List InstanceType) :
    (DatacrunchAdapter.get_spot_instance_types snapshot).Sublist snapshot ∧
    (∀ x, x ∈ DatacrunchAdapter.get_spot_instance_types snapshot ↔
      x ∈ snapshot ∧ 0 < x.spot_price_per_hour) ∧
    InstanceSelectionService.list_spot_offers snapshot =
      DatacrunchAdapter.get_spot_instance_types snapshot ∧
    List.Perm (OffersService.list_spot_offers snapshot) snapshot ∧
    List.Sorted (keyLe spotKey) (OffersService.list_spot_offers snapshot) ∧
    (∀ q : ℚ,
      (OffersService.list_spot_offers snapshot).filter (fun y => decide (spotKey y = q)) =
        snapshot.filter (fun y => decide (spotKey y = q))) := by
  refine ⟨List.filter_sublist snapshot, ?_, rfl, List.perm_insertionSort _ _,
    List.sorted_insertionSort _ _, fun q => filter_keyEq_insertionSort spotKey q snapshot⟩
  intro x
  rw [DatacrunchAdapter.get_spot_instance_types, DatacrunchAdapter.get_instance_types,
    List.mem_filter]
  simp

/-- Witness for C7: the membership characterization applied to a concrete
snapshot holding one spot-unavailable and one spot-capable offer. -/
theorem c7_witness :
    offerSpot ∈ DatacrunchAdapter.get_spot_instance_types [offerCheapNoSpot, offerSpot] :=
  ((c7_list_spot_characterization [offerCheapNoSpot, offerSpot]).2.1 offerSpot).mpr
    (by refine ⟨by simp, ?_⟩; norm_num [offerSpot])

/-- Counterexample for C7 as stated: list_spot_offers of offers.py keeps a
spot-unavailable offer (spot price 0) in its result instead of filtering it
out. -/
theorem c7_counterexample :
    offerCheapNoSpot ∈ OffersService.list_spot_offers [offerCheapNoSpot] ∧
    offerCheapNoSpot.spot_price_per_hour = 0 := by
  constructor
  · simp [OffersService.list_spot_offers, List.mem_insertionSort]
  · rfl

/-- C8: filtering with query X, X.upper() and X.lower() returns identical
results (not only identical result sets), for the adapter's and for
offers.py's filter_by_gpu_type alike. -/
theorem c8_filter_case_insensitive (snapshot : List InstanceType) (q : PyStr) :
    DatacrunchAdapter.filter_by_gpu_type snapshot (pyUpper q) =
      DatacrunchAdapter.filter_by_gpu_type snapshot q ∧
    DatacrunchAdapter.filter_by_gpu_type snapshot (pyLower q) =
      DatacrunchAdapter.filter_by_gpu_type snapshot q ∧
    OffersService.filter_by_gpu_type snapshot (pyUpper q) =
      OffersService.filter_by_gpu_type snapshot q ∧
    OffersService.filter_by_gpu_type snapshot (pyLower q) =
      OffersService.filter_by_gpu_type snapshot q := by
  refine ⟨?_, ?_, ?_, ?_⟩ <;>
    simp only [DatacrunchAdapter.filter_by_gpu_type, OffersService.filter_by_gpu_type,
      DatacrunchAdapter.get_instance_types, pyUpper_pyUpper, pyUpper_pyLower]

/-- Witness for C8: the upper/lower invariance applied to a concrete
snapshot and the query a100. -/
theorem c8_witness :
    DatacrunchAdapter.filter_by_gpu_type [offerA100Spot0] (pyUpper (pstr ("a100"))) =
      DatacrunchAdapter.filter_by_gpu_type [offerA100Spot0] (pstr ("a100")) :=
  (c8_filter_case_insensitive [offerA100Spot0] (pstr ("a100"))).1

/-- C10: filtering with the empty query returns the entire snapshot
stable-sorted ascending by on-demand price — exactly list_all_offers of
offers.py — because the empty substring is contained in every description,
the empty descriptions of CPU-only offers included. -/
theorem c10_filter_empty_query (snapshot : List InstanceType) :
    DatacrunchAdapter.filter_by_gpu_type snapshot (pstr ("")) =
      OffersService.list_all_offers snapshot ∧
    List.Perm (DatacrunchAdapter.filter_by_gpu_type snapshot (pstr (""))) snapshot ∧
    List.Sorted (keyLe priceKey) (DatacrunchAdapter.filter_by_gpu_type snapshot (pstr (""))) ∧
    (∀ q : ℚ,
      (DatacrunchAdapter.filter_by_gpu_type snapshot (pstr (""))).filter
        (fun y => decide (priceKey y = q)) =
        snapshot.filter (fun y => decide (priceKey y = q))) := by
  have hfil : (snapshot.filter
      (fun it => containsSub (pyUpper it.gpu.description) (pyUpper (pstr (""))))) = snapshot :=
    List.filter_eq_self.mpr (fun a _ => containsSub_nil_needle _)
  have hmain : DatacrunchAdapter.filter_by_gpu_type snapshot (pstr ("")) =
      OffersService.list_all_offers snapshot := by
    rw [DatacrunchAdapter.filter_by_gpu_type, DatacrunchAdapter.get_instance_types,
      OffersService.list_all_offers, hfil]
  refine ⟨hmain, ?_, ?_, ?_⟩
  · rw [hmain]; exact List.perm_insertionSort _ _
  · rw [hmain]; exact List.sorted_insertionSort _ _
  · intro q; rw [hmain]; exact filter_keyEq_insertionSort priceKey q snapshot

/-- Witness for C10: the empty query acting as identity filter on a concrete
two-offer snapshot. -/
theorem c10_witness :
    List.Perm (DatacrunchAdapter.filter_by_gpu_type [offerPriceTwo, offerPriceOne] (pstr ("")))
      [offerPriceTwo, offerPriceOne] :=
  (c10_filter_empty_query [offerPriceTwo, offerPriceOne]).2.1

/-- Core of both get_cheapest_offer implementations: empty-start gives None,
and otherwise the head of the stable sort by key is the first occurrence of
the key-minimum of the start list. -/
theorem cheapest_core (key : InstanceType → ℚ) (s : List InstanceType) :
    ((if s.isEmpty then none
      else (List.insertionSort (keyLe key) s).head?) = none ↔ s = []) ∧
    ∀ x, (if s.isEmpty then none
      else (List.insertionSort (keyLe key) s).head?) = some x → IsFirstMinBy key s x := by
  by_cases hs : s = []
  · subst hs
    exact ⟨by simp, fun x hx => by simp at hx⟩
  · have hie : s.isEmpty = false := by
      cases s with
      | nil => exact absurd rfl hs
      | cons a t => rfl
    rw [hie]
    simp only [Bool.false_eq_true, if_false]
    constructor
    · constructor
      · intro h
        obtain ⟨x, hx⟩ := head?_some_of_ne_nil _ (insertionSort_ne_nil (keyLe key) s hs)
        rw [hx] at h
        exact absurd h (by simp)
      · intro h
        exact absurd h hs
    · intro x hx
      exact head?_insertionSort_isFirstMinBy key s x hx

/-- Starting list of get_cheapest_offer in offers.py is price-sorted in both
of its branches. -/
theorem offersService_start_sorted (snapshot : List InstanceType)
    (gpu_type : Option PyStr) :
    List.Sorted (keyLe priceKey) (OffersService.cheapest_start snapshot gpu_type) := by
  rw [OffersService.cheapest_start]
  by_cases h : truthy gpu_type = true
  · rw [if_pos h]
    exact List.sorted_insertionSort _ _
  · rw [if_neg h]
    exact List.sorted_insertionSort _ _

/-- Contract of the adapter's get_cheapest_offer relative to its starting
list: None exactly on an empty start, else the first occurrence of the
minimum by the selected price key. -/
theorem adapter_cheapest_spec (snapshot : List InstanceType)
    (gpu_type : Option PyStr) (spot : Bool) :
    (DatacrunchAdapter.get_cheapest_offer snapshot gpu_type spot = none ↔
      DatacrunchAdapter.cheapest_start snapshot gpu_type spot = []) ∧
    ∀ x, DatacrunchAdapter.get_cheapest_offer snapshot gpu_type spot = some x →
      IsFirstMinBy (if spot then spotKey else priceKey)
        (DatacrunchAdapter.cheapest_start snapshot gpu_type spot) x := by
  cases spot with
  | true =>
    have h := cheapest_core spotKey (DatacrunchAdapter.cheapest_start snapshot gpu_type true)
    simpa [DatacrunchAdapter.get_cheapest_offer] using h
  | false =>
    have h := cheapest_core priceKey (DatacrunchAdapter.cheapest_start snapshot gpu_type false)
    simpa [DatacrunchAdapter.get_cheapest_offer] using h

/-- Contract of get_cheapest_offer in offers.py relative to its own starting
list (the GPU filter, else the price-sorted full snapshot). -/
theorem offers_cheapest_spec (snapshot : List InstanceType)
    (gpu_type : Option PyStr) (spot : Bool) :
    (OffersService.get_cheapest_offer snapshot gpu_type spot = none ↔
      OffersService.cheapest_start snapshot gpu_type = []) ∧
    ∀ x, OffersService.get_cheapest_offer snapshot gpu_type spot = some x →
      IsFirstMinBy (if spot then spotKey else priceKey)
        (OffersService.cheapest_start snapshot gpu_type) x := by
  cases spot with
  | true =>
    have h := cheapest_core spotKey (OffersService.cheapest_start snapshot gpu_type)
    simpa [OffersService.get_cheapest_offer] using h
  | false =>
    have hsorted := offersService_start_sorted snapshot gpu_type
    have h := cheapest_core priceKey (OffersService.cheapest_start snapshot gpu_type)
    rw [List.Sorted.insertionSort_eq hsorted] at h
    simpa [OffersService.get_cheapest_offer] using h

/-- C2 (amended): the adapter's get_cheapest_offer starts from the GPU
filter when a label is given, else from the spot list when prefer_spot is
set, else from the full snapshot, returns None exactly on an empty start and
otherwise the first occurrence of the minimum by the selected price key;
get_cheapest_offer of offers.py satisfies the same None-iff-empty and
first-minimum contract but over ITS start list, which, whenever no label is
given, is the full price-sorted snapshot — a permutation of the whole
snapshot, not the spot list — even when prefer_spot is set. -/
theorem c2_get_cheapest_characterization (snapshot : List InstanceType)
    (gpu_type : Option PyStr) (spot : Bool) :
    ((DatacrunchAdapter.get_cheapest_offer snapshot gpu_type spot = none ↔
        DatacrunchAdapter.cheapest_start snapshot gpu_type spot = []) ∧
      ∀ x, DatacrunchAdapter.get_cheapest_offer snapshot gpu_type spot = some x →
        IsFirstMinBy (if spot then spotKey else priceKey)
          (DatacrunchAdapter.cheapest_start snapshot gpu_type spot) x) ∧
    ((OffersService.get_cheapest_offer snapshot gpu_type spot = none ↔
        OffersService.cheapest_start snapshot gpu_type = []) ∧
      ∀ x, OffersService.get_cheapest_offer snapshot gpu_type spot = some x →
        IsFirstMinBy (if spot then spotKey else priceKey)
          (OffersService.cheapest_start snapshot gpu_type) x) ∧
    (truthy gpu_type = false → spot = true →
      DatacrunchAdapter.cheapest_start snapshot gpu_type spot =
        DatacrunchAdapter.get_spot_instance_types snapshot ∧
      List.Perm (OffersService.cheapest_start snapshot gpu_type) snapshot) := by
  refine ⟨adapter_cheapest_spec snapshot gpu_type spot,
    offers_cheapest_spec snapshot gpu_type spot, ?_⟩
  intro h1 h2
  subst h2
  constructor
  · simp [DatacrunchAdapter.cheapest_start, h1]
  · rw [OffersService.cheapest_start, if_neg (by simp [h1])]
    exact List.perm_insertionSort _ _

/-- Witness for C2: on a concrete two-offer snapshot with prefer_spot and no
label, the adapter's result is the first minimum by spot price of its spot
starting list. -/
theorem c2_witness :
    IsFirstMinBy spotKey (DatacrunchAdapter.cheapest_start [offerCheapNoSpot, offerSpot] none true)
      offerSpot :=
  ((c2_get_cheapest_characterization [offerCheapNoSpot, offerSpot] none true).1.2
    offerSpot (by decide))

/-- Counterexample for C2 as stated: with prefer_spot set and no label, the
claim says the starting set is the spot list, here [offerSpot]; but
get_cheapest_offer of offers.py returns offerCheapNoSpot, which is not in
that spot list at all (its spot price is 0). -/
theorem c2_counterexample :
    OffersService.get_cheapest_offer [offerCheapNoSpot, offerSpot] none true =
      some offerCheapNoSpot ∧
    DatacrunchAdapter.get_spot_instance_types [offerCheapNoSpot, offerSpot] = [offerSpot] ∧
    offerCheapNoSpot ∉ DatacrunchAdapter.get_spot_instance_types [offerCheapNoSpot, offerSpot] ∧
    offerCheapNoSpot.spot_price_per_hour = 0 := by
  refine ⟨?_, by decide, by decide, rfl⟩
  decide

/-- C4: available GPU labels are computed by running the extractor exactly
on the offers with a positive GPU count and non-empty description, dropped
silently when no rule matches, deduplicated and returned lexicographically
sorted; the adapter's and offers.py's inlined copies compute the same
value. -/
theorem c4_available_gpu_labels (snapshot : List InstanceType) :
    (get_available_gpu_types_from_instances snapshot).Nodup ∧
    List.Sorted lexRel (get_available_gpu_types_from_instances snapshot) ∧
    (∀ t : PyStr, t ∈ get_available_gpu_types_from_instances snapshot ↔
      ∃ it ∈ snapshot, it.gpu.description ≠ [] ∧ 0 < it.gpu.number_of_gpus ∧
        extract_gpu_type it.gpu.description = some t) ∧
    DatacrunchAdapter.get_available_gpu_types snapshot =
      get_available_gpu_types_from_instances snapshot ∧
    OffersService.get_available_gpu_types snapshot =
      get_available_gpu_types_from_instances snapshot := by
  refine ⟨?_, List.sorted_insertionSort _ _, ?_, rfl, rfl⟩
  · exact (List.perm_insertionSort lexRel _).symm.nodup (List.nodup_dedup _)
  · intro t
    rw [get_available_gpu_types_from_instances, List.mem_insertionSort, List.mem_dedup,
      mem_collectGpuTypes]

/-- Witness for C4: the membership characterization on a concrete snapshot:
the A100 offer contributes its label. -/
theorem c4_witness :
    pstr ("A100") ∈ get_available_gpu_types_from_instances [offerA100Spot0] := by
  refine ((c4_available_gpu_labels [offerA100Spot0]).2.2.1 (pstr ("A100"))).mpr ?_
  exact ⟨offerA100Spot0, by simp, by decide, by decide, by decide⟩

/-- C5: filter_by_gpu_type returns exactly the offers some contiguous piece
of whose RAW description equals the query up to ASCII case, stable-sorted
ascending by on-demand price; the adapter's and offers.py's versions
coincide. -/
theorem c5_filter_by_gpu_type_spec (snapshot : List InstanceType) (gpu_type : PyStr) :
    List.Perm (DatacrunchAdapter.filter_by_gpu_type snapshot gpu_type)
      (snapshot.filter (fun it => containsSub (pyUpper it.gpu.description) (pyUpper gpu_type))) ∧
    List.Sorted (keyLe priceKey) (DatacrunchAdapter.filter_by_gpu_type snapshot gpu_type) ∧
    (∀ q : ℚ, (DatacrunchAdapter.filter_by_gpu_type snapshot gpu_type).filter
        (fun y => decide (priceKey y = q)) =
      (snapshot.filter
        (fun it => containsSub (pyUpper it.gpu.description) (pyUpper gpu_type))).filter
        (fun y => decide (priceKey y = q))) ∧
    (∀ x, x ∈ DatacrunchAdapter.filter_by_gpu_type snapshot gpu_type ↔
      x ∈ snapshot ∧ ∃ s, s <:+: x.gpu.description ∧ pyUpper s = pyUpper gpu_type) ∧
    OffersService.filter_by_gpu_type snapshot gpu_type =
      DatacrunchAdapter.filter_by_gpu_type snapshot gpu_type := by
  refine ⟨List.perm_insertionSort _ _, List.sorted_insertionSort _ _,
    fun q => filter_keyEq_insertionSort priceKey q _, ?_, rfl⟩
  intro x
  rw [DatacrunchAdapter.filter_by_gpu_type, DatacrunchAdapter.get_instance_types,
    List.mem_insertionSort, List.mem_filter, ciContains_iff]

/-- Witness for C5: the lowercase query a100 keeps the A100 offer, via an
explicit infix decomposition of its raw description. -/
theorem c5_witness :
    offerA100Spot0 ∈ DatacrunchAdapter.filter_by_gpu_type [offerA100Spot0] (pstr ("a100")) := by
  refine ((c5_filter_by_gpu_type_spec [offerA100Spot0] (pstr ("a100"))).2.2.2.1
    offerA100Spot0).mpr ?_
  refine ⟨by simp, pstr ("A100"), ⟨pstr ("1x "), pstr (" SXM4 40GB"), by decide⟩, by decide⟩

/-- C6: the display formatter returns CPU Only whenever the GPU count is 0
or the description is empty, regardless of everything else; otherwise it
runs the extractor and returns Unknown on failure, count x label for a count
above one, and the bare label for count one. -/
theorem c6_format_gpu_display_spec (d : PyStr) (n : Nat) :
    ((d = [] ∨ n = 0) → format_gpu_display d n = pstr ("CPU Only")) ∧
    (d ≠ [] → n ≠ 0 → extract_gpu_type d = none →
      format_gpu_display d n = pstr ("Unknown")) ∧
    (∀ t, d ≠ [] → 1 < n → extract_gpu_type d = some t →
      format_gpu_display d n = pstr (Nat.repr n) ++ pstr ("x") ++ t) ∧
    (∀ t, d ≠ [] → n = 1 → extract_gpu_type d = some t →
      format_gpu_display d n = t) := by
  refine ⟨?_, ?_, ?_, ?_⟩
  · rintro (rfl | rfl) <;> simp [format_gpu_display]
  · intro hd hn hext
    have hie : d.isEmpty = false := by
      cases d with
      | nil => exact absurd rfl hd
      | cons c t => rfl
    simp [format_gpu_display, hie, hn, hext]
  · intro t hd hlt hext
    have hie : d.isEmpty = false := by
      cases d with
      | nil => exact absurd rfl hd
      | cons c s => rfl
    have hn : n ≠ 0 := by omega
    simp [format_gpu_display, hie, hn, hext, hlt]
  · intro t hd hn1 hext
    subst hn1
    have hie : d.isEmpty = false := by
      cases d with
      | nil => exact absurd rfl hd
      | cons c s => rfl
    simp [format_gpu_display, hie, hext]

/-- Witness for C6: two H100 GPUs display as 2xH100. -/
theorem c6_witness :
    format_gpu_display (pstr ("2x H100 SXM5 80GB")) 2 = pstr ("2xH100") := by
  have h := (c6_format_gpu_display_spec (pstr ("2x H100 SXM5 80GB")) 2).2.2.1
    (pstr ("H100")) (by decide) (by decide) (by decide)
  rw [h]
  decide

/-- C9: when a label is given together with prefer_spot, both cheapest
implementations start from the label filter, which keeps spot-unavailable
offers; so whenever some offer matching the label has spot price 0 (and
spot prices are non-negative, as the data model guarantees), the offer each
returns as cheapest spot has spot price 0. -/
theorem c9_cheapest_spot_unavailable (snapshot : List InstanceType) (g : PyStr)
    (hg : g ≠ [])
    (hnn : ∀ o ∈ snapshot, 0 ≤ o.spot_price_per_hour)
    (hex : ∃ o ∈ snapshot,
      containsSub (pyUpper o.gpu.description) (pyUpper g) = true ∧
      o.spot_price_per_hour = 0) :
    (∃ x, DatacrunchAdapter.get_cheapest_offer snapshot (some g) true = some x ∧
      x.spot_price_per_hour = 0) ∧
    (∃ x, OffersService.get_cheapest_offer snapshot (some g) true = some x ∧
      x.spot_price_per_hour = 0) := by
  have htruthy : truthy (some g) = true := by
    cases g with
    | nil => exact absurd rfl hg
    | cons c t => rfl
  obtain ⟨o, ho, hoc, hos⟩ := hex
  have hstartA : DatacrunchAdapter.cheapest_start snapshot (some g) true =
      DatacrunchAdapter.filter_by_gpu_type snapshot g := by
    rw [DatacrunchAdapter.cheapest_start, if_pos htruthy]
    rfl
  have hstartO : OffersService.cheapest_start snapshot (some g) =
      DatacrunchAdapter.filter_by_gpu_type snapshot g := by
    rw [OffersService.cheapest_start, if_pos htruthy]
    rfl
  have homem : o ∈ DatacrunchAdapter.filter_by_gpu_type snapshot g := by
    rw [DatacrunchAdapter.filter_by_gpu_type, DatacrunchAdapter.get_instance_types,
      List.mem_insertionSort, List.mem_filter]
    exact ⟨ho, hoc⟩
  have hne : DatacrunchAdapter.filter_by_gpu_type snapshot g ≠ [] :=
    List.ne_nil_of_mem homem
  have hsub : ∀ x ∈ DatacrunchAdapter.filter_by_gpu_type snapshot g, x ∈ snapshot := by
    intro x hx
    rw [DatacrunchAdapter.filter_by_gpu_type, DatacrunchAdapter.get_instance_types,
      List.mem_insertionSort, List.mem_filter] at hx
    exact hx.1
  have hzero : ∀ x, IsFirstMinBy spotKey (DatacrunchAdapter.filter_by_gpu_type snapshot g) x →
      x.spot_price_per_hour = 0 := by
    intro x hmin
    have hle : spotKey x ≤ spotKey o := hmin.2.1 o homem
    have hge : 0 ≤ spotKey x := hnn x (hsub x hmin.1)
    have : spotKey o = 0 := hos
    have hx0 : spotKey x = 0 := le_antisymm (by rw [← this]; exact hle) hge
    exact hx0
  constructor
  · have hch := adapter_cheapest_spec snapshot (some g) true
    rw [hstartA] at hch
    obtain ⟨x, hx⟩ : ∃ x, DatacrunchAdapter.get_cheapest_offer snapshot (some g) true = some x := by
      cases hr : DatacrunchAdapter.get_cheapest_offer snapshot (some g) true with
      | none => exact absurd (hch.1.mp hr) hne
      | some x => exact ⟨x, rfl⟩
    have hmin := hch.2 x hx
    simp only [if_pos rfl] at hmin
    exact ⟨x, hx, hzero x (by simpa using hmin)⟩
  · have hch := offers_cheapest_spec snapshot (some g) true
    rw [hstartO] at hch
    obtain ⟨x, hx⟩ : ∃ x, OffersService.get_cheapest_offer snapshot (some g) true = some x := by
      cases hr : OffersService.get_cheapest_offer snapshot (some g) true with
      | none => exact absurd (hch.1.mp hr) hne
      | some x => exact ⟨x, rfl⟩
    have hmin := hch.2 x hx
    exact ⟨x, hx, hzero x (by simpa using hmin)⟩

/-- Witness for C9: a snapshot holding one A100 offer with spot price 0,
queried with label A100 and prefer_spot: both implementations report the
spot-unavailable offer as the cheapest spot choice. -/
theorem c9_witness :
    (∃ x, DatacrunchAdapter.get_cheapest_offer [offerA100Spot0]
        (some (pstr ("A100"))) true = some x ∧ x.spot_price_per_hour = 0) ∧
    (∃ x, OffersService.get_cheapest_offer [offerA100Spot0]
        (some (pstr ("A100"))) true = some x ∧ x.spot_price_per_hour = 0) :=
  c9_cheapest_spot_unavailable [offerA100Spot0] (pstr ("A100")) (by decide)
    (by intro o ho; simp at ho; rw [ho]; norm_num [offerA100Spot0])
    ⟨offerA100Spot0, by simp, by decide, rfl⟩
